import Mathlib

/-!
# TouhouGGEZ combat simulation — verification development

A shallow embedding of the combat simulation of `src/main.rs` (a small
bullet-hell game) together with proofs about it.

Modelling conventions:
* `f32` quantities (positions, speeds, seconds) are embedded as exact
  rationals `ℚ`; `std::time::Duration` is exact nanoseconds in the source,
  embedded as exact seconds in `ℚ`.
* `u32`/`usize` are embedded as `ℕ` (`saturating_sub` is `ℕ` subtraction;
  no arithmetic in the source can overflow a `u32` upward).
* Render-only data (`ggez::Image`, `ggez::Color`, text layout) is kept as
  inert tokens (`Sprite` with a path string and a color tag) so that the
  record shapes of the source survive; it carries no behaviour.
* The `Health.on_hit` callback only prints to stdout in the source
  (`println!`), so it is dropped from the embedded `Health`.
* Panicking operations (`Vec` indexing via `unwrap`, `self.uis[0]`) are
  embedded in `Option`, with `none` standing for a panic.
* The engine context `ctx` contributes exactly the frame delta
  (`ctx.time.delta()`) and the pressed-key set to the functions embedded
  here; both are passed explicitly.
-/

-- ------------------------------------------
-- Data model (structs of main.rs)
-- ------------------------------------------

/-- Color tokens used by the source (`Color::WHITE`, `Color::BLACK`). -/
inductive Color where
  | white
  | black
  deriving DecidableEq

/-- Embeds `struct Sprite { image: Image, color: Color }`; the image is kept
as its load path. -/
structure Sprite where
  image : String
  color : Color
  deriving DecidableEq

/-- Embeds `mint::Point2<f32>` over exact rationals. -/
structure Point where
  x : ℚ
  y : ℚ
  deriving DecidableEq

/-- Embeds `struct Body { sprite, position, direction, speed }`. -/
structure Body where
  sprite : Sprite
  position : Point
  direction : Point
  speed : ℚ
  deriving DecidableEq

/-- Embeds `struct Health { health, max_health, on_hit }`; the `on_hit`
callback only prints, so it is dropped (see the file header). -/
structure Health where
  health : ℕ
  max_health : ℕ
  deriving DecidableEq

/-- Embeds `struct Timer { time: Duration, delay: f32 }`; `time` is exact
seconds. -/
structure Timer where
  time : ℚ
  delay : ℚ
  deriving DecidableEq

/-- Embeds `struct Bullet { body, is_visible }`. -/
structure Bullet where
  body : Body
  is_visible : Bool
  deriving DecidableEq

/-- Embeds `struct Spell { bullets: Vec<Bullet>, shot_timer: Timer }`. -/
structure Spell where
  bullets : List Bullet
  shot_timer : Timer
  deriving DecidableEq

/-- Embeds `struct Particle { bullet, timer }`. -/
structure Particle where
  bullet : Bullet
  timer : Timer
  deriving DecidableEq

/-- Embeds `struct Player { health, body, spell }`. -/
structure Player where
  health : Health
  body : Body
  spell : Spell
  deriving DecidableEq

/-- Embeds `struct Enemy { health, body, spell, move_timer, directions }`. -/
structure Enemy where
  health : Health
  body : Body
  spell : Spell
  move_timer : Timer
  directions : List ℚ
  deriving DecidableEq

/-- Embeds `struct Screen { width, height }`. -/
structure Screen where
  width : ℚ
  height : ℚ
  deriving DecidableEq

/-- Embeds `enum GameState`. -/
inductive GameState where
  | Combat
  | Paused
  | Cinematic
  deriving DecidableEq

/-- Embeds `struct StoryLine { text, sprite, pos, color }` (color dropped as
render-only). -/
structure StoryLine where
  text : String
  sprite : Sprite
  pos : Point
  deriving DecidableEq

/-- The three menu actions ever stored in a `UISelectable` by the source
(all constructed in `pause_menu()`); the stored `fn` pointers are embedded
as this tag and interpreted in `applyMenuAction`. -/
inductive MenuAction where
  | resume
  | reset
  | quit
  deriving DecidableEq

/-- Embeds `struct UISelectable<Text>` (colors dropped as render-only). -/
structure UISelectable where
  img : String
  pos : Point
  action : MenuAction
  deriving DecidableEq

/-- Embeds `struct State`; `uis : VecDeque<UIMenu>` becomes a list of menus
(head = front), `last_update` (a file mtime) becomes the explicit
`scriptChanged` input of `State.update`. -/
structure State where
  uis : List (List UISelectable)
  gamestate : GameState
  story : List StoryLine
  screen : Screen
  background : String
  player : Option Player
  enemy : Option Enemy
  texts : List String
  particles : List Particle
  deriving DecidableEq

/-- The combat movement keys polled in `on_combat_update`
(`ctx.keyboard.is_key_pressed` for W/S/A/D). -/
structure Input where
  w : Bool
  s : Bool
  a : Bool
  d : Bool
  deriving DecidableEq

/-- Embeds `struct InitData { amount, health, speed }` of the script
configuration. -/
structure InitData where
  amount : ℕ
  health : ℕ
  speed : ℚ
  deriving DecidableEq

/-- Embeds `struct InitObject { data, bullet }`. -/
structure InitObject where
  data : InitData
  bullet : InitData
  deriving DecidableEq

/-- Embeds `struct Globals { background, player, enemy }`, the parsed
configuration (parsing itself is a collaborator outside the core). -/
structure Globals where
  background : String
  player : InitObject
  enemy : InitObject
  deriving DecidableEq

-- ------------------------------------------
-- Constants of main.rs
-- ------------------------------------------

def PLAYER_IMG_PATH : String := "/sakuya.png"

def ENEMY_IMG_PATH : String := "/sakuya.png"

def BULLET_IMG_PATH : String := "/isaac.png"

def DIR_UP : Point := ⟨0, -1⟩

def DIR_DOWN : Point := ⟨0, 1⟩

def DIR_LEFT : Point := ⟨-1, 0⟩

def DIR_RIGHT : Point := ⟨1, 0⟩

/-- The hitbox radius used when the player is the collision target
(`bullet.collided(&player.body.position, 25.)` in `Enemy::update`). -/
def playerHitbox : ℚ := 25

/-- The hitbox radius used when the enemy is the collision target
(`bullet.collided(&enemy.body.position, 100.)` in `Player::update`). -/
def enemyHitbox : ℚ := 100

-- ------------------------------------------
-- Leaf operations
-- ------------------------------------------

/-- Embeds `Timer::new(delay)`. -/
def Timer.new (delay : ℚ) : Timer :=
  { time := 0, delay := delay }

/-- Embeds `Timer::ready(&mut self, ctx)`: accumulate the frame delta, fire
(strictly) past `delay`, reset to zero on firing. Returns the fired flag and
the updated timer. -/
def Timer.ready (t : Timer) (delta : ℚ) : Bool × Timer :=
  let time := t.time + delta
  if t.delay < time then (true, { t with time := 0 })
  else (false, { t with time := time })

/-- Embeds `Health::take_damage` (`saturating_sub`, as `ℕ` subtraction; the
print-only `on_hit` callback is dropped). -/
def Health.take_damage (h : Health) (damage : ℕ) : Health :=
  { h with health := h.health - damage }

/-- Embeds `Health::is_alive`. -/
def Health.is_alive (h : Health) : Bool :=
  decide (0 < h.health)

/-- Embeds `Body::new(sprite, position, direction, speed)`. -/
def Body.new (sprite : Sprite) (position direction : Point) (speed : ℚ) : Body :=
  { sprite := sprite, position := position, direction := direction, speed := speed }

/-- Embeds `Bullet::new(sprite, direction, speed)`: hidden at the origin. -/
def Bullet.new (sprite : Sprite) (direction : Point) (speed : ℚ) : Bullet :=
  { body := Body.new sprite ⟨0, 0⟩ direction speed, is_visible := false }

/-- Embeds `Bullet::update`: move by `direction * speed`. -/
def Bullet.update (b : Bullet) : Bullet :=
  { b with body := { b.body with position :=
      ⟨b.body.position.x + b.body.direction.x * b.body.speed,
       b.body.position.y + b.body.direction.y * b.body.speed⟩ } }

/-- Squared Euclidean distance, the radicand of
`Distance::distance for Point2<f32>`. -/
def distSq (a b : Point) : ℚ :=
  (a.x - b.x) ^ 2 + (a.y - b.y) ^ 2

/-- Embeds `Bullet::collided`: `position.distance(other) < hitbox_size`.
The source compares the real square root; over `ℚ` this is the executable
equivalent `0 < hitbox ∧ distSq < hitbox²` (the equivalence with the
`Real.sqrt` form is proved in `collided_iff_sqrt_lt`). -/
def Bullet.collided (b : Bullet) (other : Point) (hitbox_size : ℚ) : Bool :=
  decide (0 < hitbox_size) && decide (distSq b.body.position other < hitbox_size ^ 2)

/-- Embeds `Spell::new(bullet, bullets_size, delay)`. -/
def Spell.new (bullet : Bullet) (bullets_size : ℕ) (delay : ℚ) : Spell :=
  { bullets := List.replicate bullets_size bullet, shot_timer := Timer.new delay }

/-- The slot mutation of `Spell::spawn`: make the first hidden bullet
visible at `position` (`find(|x| !x.is_visible)` then set position and
visibility). -/
def activateFirstHidden : List Bullet → Point → List Bullet
  | [], _ => []
  | b :: bs, position =>
    if b.is_visible then b :: activateFirstHidden bs position
    else { b with body := { b.body with position := position }, is_visible := true } :: bs

/-- Embeds `Spell::spawn(&mut self, ctx, position)`. -/
def Spell.spawn (s : Spell) (delta : ℚ) (position : Point) : Spell :=
  let r := s.shot_timer.ready delta
  if r.1 then { bullets := activateFirstHidden s.bullets position, shot_timer := r.2 }
  else { s with shot_timer := r.2 }

/-- Embeds `Particle::new(sprite, ttl, position, direction, speed)`. -/
def Particle.new (sprite : Sprite) (ttl : ℚ) (position direction : Point) (speed : ℚ) : Particle :=
  { bullet := { body := Body.new sprite position direction speed, is_visible := true }
    timer := Timer.new ttl }

/-- Embeds `Particle::update`: hide once the TTL timer fires, otherwise keep
moving. -/
def Particle.update (p : Particle) (delta : ℚ) : Particle :=
  let r := p.timer.ready delta
  if r.1 then { bullet := { p.bullet with is_visible := false }, timer := r.2 }
  else { bullet := p.bullet.update, timer := r.2 }

-- ------------------------------------------
-- Entity construction and per-tick update
-- ------------------------------------------

/-- Embeds `Player::new(sprite, health, bullet, bullets_size)`. -/
def Player.new (sprite : Sprite) (health : ℕ) (bullet : Bullet) (bullets_size : ℕ) : Player :=
  { health := { health := health, max_health := health }
    body := Body.new sprite ⟨350, 350⟩ ⟨0, 0⟩ 5
    spell := Spell.new bullet bullets_size (1/10) }

/-- Embeds `Enemy::new(sprite, health, speed, bullet, bullets_size)`. -/
def Enemy.new (sprite : Sprite) (health : ℕ) (speed : ℚ) (bullet : Bullet) (bullets_size : ℕ) : Enemy :=
  { health := { health := health, max_health := health }
    body := Body.new sprite ⟨350, 100⟩ ⟨1, 0⟩ speed
    spell := Spell.new bullet bullets_size (1/2)
    directions := [-1, 0, 1, 0, 1, 0, -1, 0]
    move_timer := Timer.new (3/2) }

/-- One iteration of the closure in `Player::update`'s
`for_each_visible_mut`: advance a visible player bullet, resolve its
collision against the enemy (radius `enemyHitbox`), then the bounds check
`x < 0 || y < 0`. -/
def playerBulletStep (enemy : Option Enemy) (b : Bullet) : Bullet × Option Enemy :=
  if b.is_visible then
    let b := b.update
    let r : Bullet × Option Enemy :=
      match enemy with
      | some e =>
        if b.collided e.body.position enemyHitbox then
          ({ b with is_visible := false }, some { e with health := e.health.take_damage 1 })
        else (b, some e)
      | none => (b, none)
    let b := if r.1.body.position.x < 0 ∨ r.1.body.position.y < 0 then
      { r.1 with is_visible := false } else r.1
    (b, r.2)
  else (b, enemy)

/-- The whole `for_each_visible_mut` pass of `Player::update`, folded left
to right over the pool with the mutable enemy threaded through. -/
def playerBulletsFold : List Bullet → Option Enemy → List Bullet × Option Enemy
  | [], enemy => ([], enemy)
  | b :: bs, enemy =>
    let r := playerBulletStep enemy b
    let rest := playerBulletsFold bs r.2
    (r.1 :: rest.1, rest.2)

/-- Embeds `Player::update(&mut self, ctx, enemy)`: advance/collide the
visible bullets, then `spawn` at the player's position. -/
def Player.update (p : Player) (delta : ℚ) (enemy : Option Enemy) : Player × Option Enemy :=
  let r := playerBulletsFold p.spell.bullets enemy
  let spell := Spell.spawn { bullets := r.1, shot_timer := p.spell.shot_timer } delta p.body.position
  ({ p with spell := spell }, r.2)

/-- One iteration of the closure in `Enemy::update`'s
`for_each_visible_mut`: advance a visible enemy bullet, resolve its
collision against the player (radius `playerHitbox`), then the bounds check
`x < 0 || y > screen.height`. -/
def enemyBulletStep (screen : Screen) (player : Option Player) (b : Bullet) : Bullet × Option Player :=
  if b.is_visible then
    let b := b.update
    let r : Bullet × Option Player :=
      match player with
      | some p =>
        if b.collided p.body.position playerHitbox then
          ({ b with is_visible := false }, some { p with health := p.health.take_damage 1 })
        else (b, some p)
      | none => (b, none)
    let b := if r.1.body.position.x < 0 ∨ screen.height < r.1.body.position.y then
      { r.1 with is_visible := false } else r.1
    (b, r.2)
  else (b, player)

/-- The whole `for_each_visible_mut` pass of `Enemy::update`. -/
def enemyBulletsFold (screen : Screen) : List Bullet → Option Player → List Bullet × Option Player
  | [], player => ([], player)
  | b :: bs, player =>
    let r := enemyBulletStep screen player b
    let rest := enemyBulletsFold screen bs r.2
    (r.1 :: rest.1, rest.2)

/-- Embeds `Enemy::move_auto`: rotate the direction pattern when the move
timer fires, then drift horizontally by `front(directions) * speed`
(`first().unwrap_or(&0.0)`). -/
def Enemy.move_auto (e : Enemy) (delta : ℚ) : Enemy :=
  let r := e.move_timer.ready delta
  let directions := if r.1 then e.directions.rotateLeft 1 else e.directions
  let vel := directions.headD 0
  { e with
    move_timer := r.2
    directions := directions
    body := { e.body with position :=
      ⟨e.body.position.x + vel * e.body.speed, e.body.position.y⟩ } }

/-- Embeds `Enemy::update(&mut self, ctx, player, screen)`: `move_auto`,
then advance/collide the visible bullets, then `spawn` at the (moved) enemy
position. -/
def Enemy.update (e : Enemy) (delta : ℚ) (player : Option Player) (screen : Screen) :
    Enemy × Option Player :=
  let e := e.move_auto delta
  let r := enemyBulletsFold screen e.spell.bullets player
  let spell := Spell.spawn { bullets := r.1, shot_timer := e.spell.shot_timer } delta e.body.position
  ({ e with spell := spell }, r.2)

-- ------------------------------------------
-- The combat tick (State::on_combat_update)
-- ------------------------------------------

/-- Move the player's body by `dir * speed` (the body of the key loop in
`on_combat_update`). -/
def movePlayer (dir : Point) (s : State) : State :=
  match s.player with
  | some p =>
    { s with player := some { p with body := { p.body with position :=
        ⟨p.body.position.x + dir.x * p.body.speed,
         p.body.position.y + dir.y * p.body.speed⟩ } } }
  | none => s

/-- The key-polling loop at the top of `on_combat_update`, over the keys
`[W, S, A, D]` in that order. -/
def inputPass (input : Input) (s : State) : State :=
  let s := if input.w then movePlayer DIR_UP s else s
  let s := if input.s then movePlayer DIR_DOWN s else s
  let s := if input.a then movePlayer DIR_LEFT s else s
  if input.d then movePlayer DIR_RIGHT s else s

/-- Text pushed when the player dies. -/
def DEATH_TEXT : String := "You died! Press R to restart."

/-- Text pushed when the enemy dies. -/
def WIN_TEXT : String := "You win! Press R to restart."

/-- The four death particles spawned at `position` with the sprite of the
first pool slot (the loop over `[DIR_UP, DIR_DOWN, DIR_LEFT, DIR_RIGHT]`). -/
def deathParticles (sprite : Sprite) (position : Point) : List Particle :=
  [DIR_UP, DIR_DOWN, DIR_LEFT, DIR_RIGHT].map
    (fun dir => Particle.new sprite 2 position dir 5)

/-- The `particles.retain_mut` pass at the end of `on_combat_update`:
update every particle, keep the still-visible ones, in order. -/
def particlesRun (delta : ℚ) (ps : List Particle) : List Particle :=
  (ps.map (fun p => p.update delta)).filter (fun p => p.bullet.is_visible)

/-- Embeds `State::on_combat_update`. `none` is a panic: the death branches
read `spell.bullets.first().unwrap()` for the particle sprite, which panics
on an empty pool. -/
def State.on_combat_update (s : State) (input : Input) (delta : ℚ) : Option State :=
  let s := inputPass input s
  let step1 : Option State :=
    match s.player with
    | none => some s
    | some player =>
      let r := player.update delta s.enemy
      let player := r.1
      let s := { s with player := some player, enemy := r.2 }
      if player.health.is_alive then some s
      else
        match player.spell.bullets.head? with
        | none => none
        | some b =>
          some { s with
            particles := s.particles ++ deathParticles b.body.sprite player.body.position
            texts := s.texts ++ [DEATH_TEXT]
            player := none }
  step1.bind fun s =>
    let step2 : Option State :=
      match s.enemy with
      | none => some s
      | some enemy =>
        let r := enemy.update delta s.player s.screen
        let enemy := r.1
        let s := { s with enemy := some enemy, player := r.2 }
        if enemy.health.is_alive then some s
        else
          match enemy.spell.bullets.head? with
          | none => none
          | some b =>
            some { s with
              particles := s.particles ++ deathParticles b.body.sprite enemy.body.position
              texts := s.texts ++ [WIN_TEXT]
              enemy := none }
    step2.map fun s => { s with particles := particlesRun delta s.particles }

-- ------------------------------------------
-- State construction, key handling, frame update
-- ------------------------------------------

/-- Embeds `pause_menu()`: Resume / Reset / Quit, front first. -/
def pause_menu : List UISelectable :=
  [ { img := "Resume", pos := ⟨0, -100⟩, action := MenuAction.resume },
    { img := "Reset", pos := ⟨0, 0⟩, action := MenuAction.reset },
    { img := "Quit", pos := ⟨0, 100⟩, action := MenuAction.quit } ]

/-- Embeds `State::new(ctx)` for a parsed configuration (the successful
parse branch; parsing and image loading are collaborators). The screen size
comes from `ctx.gfx.size()`, passed here explicitly. Note the source passes
the player sprite `p_spr` to `Enemy::new`. -/
def State.new (cfg : Globals) (screen : Screen) : State :=
  let b_spr : Sprite := { image := BULLET_IMG_PATH, color := Color.white }
  let p_spr : Sprite := { image := PLAYER_IMG_PATH, color := Color.white }
  let e_spr : Sprite := { image := ENEMY_IMG_PATH, color := Color.black }
  let player := Player.new p_spr cfg.player.data.health
    (Bullet.new b_spr DIR_UP cfg.player.bullet.speed) cfg.player.bullet.amount
  let enemy := Enemy.new p_spr cfg.enemy.data.health cfg.enemy.data.speed
    (Bullet.new b_spr DIR_DOWN cfg.enemy.bullet.speed) cfg.enemy.bullet.amount
  { gamestate := GameState.Cinematic
    screen := screen
    story := [ { text := "I\x27m going to kill you!", sprite := e_spr
                 pos := ⟨-screen.width * (7/10), 0⟩ },
               { text := "The story begins...", sprite := p_spr, pos := ⟨0, 0⟩ } ]
    uis := []
    player := some player
    enemy := some enemy
    background := cfg.background
    particles := []
    texts := [] }

/-- The keys distinguished by `State::key_down_event`. -/
inductive Key where
  | Return
  | Space
  | Escape
  | R
  | W
  | A
  | S
  | D
  | Up
  | Down
  | Left
  | Right
  | Other
  deriving DecidableEq

/-- Interprets the three `action` function pointers stored by `pause_menu`.
`Quit` calls `ctx.request_quit()`, an engine-side effect with no `State`
mutation. -/
def applyMenuAction (cfg : Globals) (a : MenuAction) (s : State) : State :=
  match a with
  | MenuAction.resume =>
    { s with
      uis := s.uis.tail
      gamestate := if s.story.isEmpty then GameState.Combat else GameState.Cinematic }
  | MenuAction.reset => State.new cfg s.screen
  | MenuAction.quit => s

/-- Embeds `State::key_down_event`, preserving the fall-through order of
the source `match` arms and their guards. `none` is a panic (`self.uis[0]`
on an empty deque). -/
def State.key_down_event (cfg : Globals) (s : State) (key : Key) (repeated : Bool) :
    Option State :=
  if (key = Key.Return ∨ key = Key.Space) ∧ repeated = false then
    match s.gamestate with
    | GameState.Cinematic =>
      let popped := s.story.dropLast
      if s.story.isEmpty ∨ popped.isEmpty then
        some { s with story := popped, gamestate := GameState.Combat }
      else
        some { s with story := popped }
    | GameState.Paused =>
      match s.uis.head? with
      | none => none
      | some menu =>
        match menu.head? with
        | some elem => some (applyMenuAction cfg elem.action s)
        | none => some s
    | GameState.Combat => some s
  else if key = Key.Escape ∧ repeated = false ∧ s.gamestate ≠ GameState.Paused then
    some { s with gamestate := GameState.Paused, uis := pause_menu :: s.uis }
  else if key = Key.R ∧ repeated = false then
    some (State.new cfg s.screen)
  else if s.gamestate = GameState.Paused then
    if key = Key.Down ∨ key = Key.Right ∨ key = Key.S ∨ key = Key.D then
      match s.uis.head? with
      | none => none
      | some menu =>
        match menu with
        | [] => some s
        | e :: rest => some { s with uis := (rest ++ [e]) :: s.uis.tail }
    else if key = Key.Up ∨ key = Key.Left ∨ key = Key.W ∨ key = Key.A then
      match s.uis.head? with
      | none => none
      | some menu =>
        match menu.getLast? with
        | none => some s
        | some e => some { s with uis := (e :: menu.dropLast) :: s.uis.tail }
    else some s
  else some s

/-- Embeds `State::update` (the `EventHandler` per-frame hook): on a script
file modification the whole state is rebuilt (`restart`), then the combat
tick runs only in `GameState.Combat`. The file-mtime comparison is passed
as `scriptChanged`. -/
def State.update (cfg : Globals) (scriptChanged : Bool) (input : Input) (delta : ℚ)
    (s : State) : Option State :=
  let s := if scriptChanged then State.new cfg s.screen else s
  match s.gamestate with
  | GameState.Combat => s.on_combat_update input delta
  | _ => some s

-- ------------------------------------------
-- Tick decomposition into named passes
-- ------------------------------------------

/-- Pass: the player's visible bullets advance and collide against the
enemy (the `for_each_visible_mut` part of `Player::update`). -/
def playerBulletsPass (s : State) : State :=
  match s.player with
  | none => s
  | some p =>
    let r := playerBulletsFold p.spell.bullets s.enemy
    { s with
      player := some { p with spell := { p.spell with bullets := r.1 } }
      enemy := r.2 }

/-- Pass: the player's `Spell::spawn` at the player's position. -/
def playerSpawnPass (delta : ℚ) (s : State) : State :=
  match s.player with
  | none => s
  | some p => { s with player := some { p with spell := p.spell.spawn delta p.body.position } }

/-- Pass: the player death check of `on_combat_update` (particles, message,
removal); `none` is the `first().unwrap()` panic on an empty pool. -/
def playerDeathPass (s : State) : Option State :=
  match s.player with
  | none => some s
  | some player =>
    if player.health.is_alive then some s
    else
      match player.spell.bullets.head? with
      | none => none
      | some b =>
        some { s with
          particles := s.particles ++ deathParticles b.body.sprite player.body.position
          texts := s.texts ++ [DEATH_TEXT]
          player := none }

/-- Pass: the enemy movement-pattern update (`Enemy::move_auto`). -/
def enemyMovePass (delta : ℚ) (s : State) : State :=
  match s.enemy with
  | none => s
  | some e => { s with enemy := some (e.move_auto delta) }

/-- Pass: the enemy's visible bullets advance and collide against the
player (the `for_each_visible_mut` part of `Enemy::update`). -/
def enemyBulletsPass (s : State) : State :=
  match s.enemy with
  | none => s
  | some e =>
    let r := enemyBulletsFold s.screen e.spell.bullets s.player
    { s with
      enemy := some { e with spell := { e.spell with bullets := r.1 } }
      player := r.2 }

/-- Pass: the enemy's `Spell::spawn` at the enemy's position. -/
def enemySpawnPass (delta : ℚ) (s : State) : State :=
  match s.enemy with
  | none => s
  | some e => { s with enemy := some { e with spell := e.spell.spawn delta e.body.position } }

/-- Pass: the enemy death check of `on_combat_update`. -/
def enemyDeathPass (s : State) : Option State :=
  match s.enemy with
  | none => some s
  | some enemy =>
    if enemy.health.is_alive then some s
    else
      match enemy.spell.bullets.head? with
      | none => none
      | some b =>
        some { s with
          particles := s.particles ++ deathParticles b.body.sprite enemy.body.position
          texts := s.texts ++ [WIN_TEXT]
          enemy := none }

/-- Pass: particle aging (`particles.retain_mut`). -/
def particlesPass (delta : ℚ) (s : State) : State :=
  { s with particles := particlesRun delta s.particles }

/-- A combat tick composed in the order the specification document states
(enemy movement → enemy bullets → enemy spawn → player bullets → player
spawn → death pass → particle pass). This definition follows the spec's
words, for comparison with `State.on_combat_update`; it is not a
translation of the source. -/
def specOrderTick (input : Input) (delta : ℚ) (s : State) : Option State :=
  let s := inputPass input s
  let s := enemyMovePass delta s
  let s := enemyBulletsPass s
  let s := enemySpawnPass delta s
  let s := playerBulletsPass s
  let s := playerSpawnPass delta s
  (playerDeathPass s).bind fun s =>
    (enemyDeathPass s).map fun s => particlesPass delta s

-- ------------------------------------------
-- Tick sequencing and small drivers
-- ------------------------------------------

/-- Run a sequence of combat ticks, one `(input, delta)` pair each. -/
def runTrace : List (Input × ℚ) → State → Option State
  | [], s => some s
  | t :: ts, s => (s.on_combat_update t.1 t.2).bind (runTrace ts)

/-- Run `n` combat ticks with a fixed input and delta. -/
def runTicks (input : Input) (delta : ℚ) : ℕ → State → Option State
  | 0, s => some s
  | n + 1, s => (s.on_combat_update input delta).bind (runTicks input delta n)

/-- Advance a timer through a list of deltas, counting how often it fired. -/
def runTimer (t : Timer) : List ℚ → Timer × ℕ
  | [] => (t, 0)
  | d :: ds =>
    let r := t.ready d
    let rest := runTimer r.2 ds
    (rest.1, (if r.1 then 1 else 0) + rest.2)

/-- Apply a sequence of `take_damage` calls. -/
def applyDamages (h : Health) (ds : List ℕ) : Health :=
  ds.foldl Health.take_damage h

/-- The all-keys-up combat input. -/
def noInput : Input := ⟨false, false, false, false⟩

-- ------------------------------------------
-- Concrete fixtures: the end-to-end firing scenario and test states
-- ------------------------------------------

/-- The bullet sprite of `State::new`. -/
def bulletSprite : Sprite := { image := BULLET_IMG_PATH, color := Color.white }

/-- The player sprite of `State::new`. -/
def playerSprite : Sprite := { image := PLAYER_IMG_PATH, color := Color.white }

/-- The end-to-end scenario of the spec: a combat state whose player sits at
`(350,350)` (as `Player::new` places it) with a one-slot pool of upward
bullets of the given speed, a `0.1`-second fire cooldown, and no enemy;
screen height `800`. -/
def scenarioState (speed : ℚ) : State :=
  { gamestate := GameState.Combat
    screen := ⟨800, 800⟩
    story := []
    uis := []
    background := ""
    player := some (Player.new playerSprite 100 (Bullet.new bulletSprite DIR_UP speed) 1)
    enemy := none
    texts := []
    particles := [] }

/-- The scenario state as it stands `j` ticks after the tick that spawned
the bullet (so after `2 + j` ticks in total): the single pool slot is
visible at `(350, 350 - j·speed)` and the fire timer holds `0` or `0.1`
seconds by the parity of `j`. -/
def scenarioAfter (speed : ℚ) (j : ℕ) : State :=
  { gamestate := GameState.Combat
    screen := ⟨800, 800⟩
    story := []
    uis := []
    background := ""
    player := some
      { health := ⟨100, 100⟩
        body := Body.new playerSprite ⟨350, 350⟩ ⟨0, 0⟩ 5
        spell :=
          { bullets := [{ body :=
              { sprite := bulletSprite
                position := ⟨350, 350 - (j : ℚ) * speed⟩
                direction := ⟨0, -1⟩
                speed := speed }, is_visible := true }]
            shot_timer := ⟨if j % 2 = 0 then 0 else 1/10, 1/10⟩ } }
    enemy := none
    texts := []
    particles := [] }

/-- A combat state exercising the ordering of the tick's passes: the player
has one visible bullet one step short of the enemy's hitbox, and the enemy
drifts fast enough (`speed 200`, pattern front `1`) that moving it before
the player-bullet pass takes it out of collision range. -/
def orderProbeState : State :=
  { gamestate := GameState.Combat
    screen := ⟨800, 800⟩
    story := []
    uis := []
    background := ""
    player := some
      { health := ⟨5, 5⟩
        body := Body.new playerSprite ⟨350, 350⟩ ⟨0, 0⟩ 5
        spell :=
          { bullets := [{ body :=
              { sprite := bulletSprite
                position := ⟨350, 120⟩
                direction := ⟨0, -1⟩
                speed := 19 }, is_visible := true }]
            shot_timer := Timer.new (1/10) } }
    enemy := some
      { health := ⟨5, 5⟩
        body := Body.new playerSprite ⟨350, 100⟩ ⟨1, 0⟩ 200
        spell := { bullets := [Bullet.new bulletSprite DIR_DOWN 3], shot_timer := Timer.new (1/2) }
        directions := [1]
        move_timer := Timer.new (3/2) }
    texts := []
    particles := [] }

/-- A visible bullet inside the vertical play area whose `x` is negative
(it does not move: zero direction and speed). -/
def leftOutBullet : Bullet :=
  { body := { sprite := bulletSprite, position := ⟨-5, 100⟩, direction := ⟨0, 0⟩, speed := 0 }
    is_visible := true }

/-- A paused state with the pause menu open, as produced by the Escape
branch of `key_down_event`. -/
def pausedProbeState : State :=
  { orderProbeState with gamestate := GameState.Paused, uis := [pause_menu] }

/-- A configuration with every numeric field at the source defaults
(`Default` derives to zeroes / empty strings). -/
def defaultGlobals : Globals :=
  { background := ""
    player := { data := ⟨0, 0, 0⟩, bullet := ⟨0, 0, 0⟩ }
    enemy := { data := ⟨0, 0, 0⟩, bullet := ⟨0, 0, 0⟩ } }

/-- A combat state whose player is dead with an empty bullet pool (as built
from a configuration with `player.bullet.amount = 0`). -/
def emptyPoolDeadState : State :=
  { orderProbeState with
    player := some
      { health := ⟨0, 5⟩
        body := Body.new playerSprite ⟨350, 350⟩ ⟨0, 0⟩ 5
        spell := Spell.new (Bullet.new bulletSprite DIR_UP 3) 0 (1/10) }
    enemy := none }

/-- A visible bullet sitting exactly on the player-hitbox boundary of
`boundaryTarget` (distance 25). -/
def boundaryBullet : Bullet :=
  { body := { sprite := bulletSprite, position := ⟨350, 350⟩, direction := ⟨0, 0⟩, speed := 0 }
    is_visible := true }

/-- A target point at distance exactly `25` from `boundaryBullet`. -/
def boundaryTarget : Point := ⟨375, 350⟩

/-- The visible middle slot of `mixedPool`. -/
def mixedVisibleSlot : Bullet :=
  { body := { sprite := bulletSprite, position := ⟨7, 8⟩, direction := ⟨0, -1⟩, speed := 3 }
    is_visible := true }

/-- A three-slot pool `[Hidden, Visible, Hidden]` with a ready-to-fire
cooldown timer, the worked example of the spawn-recycling property. -/
def mixedPool : Spell :=
  { bullets := [Bullet.new bulletSprite DIR_UP 3, mixedVisibleSlot, Bullet.new bulletSprite DIR_UP 3]
    shot_timer := ⟨1/10, 1/10⟩ }

/-- The first slot of `mixedPool` as `spawn` leaves it: visible at the
spawn origin `(350,350)`. -/
def mixedActivatedSlot : Bullet :=
  { body := { sprite := bulletSprite, position := ⟨350, 350⟩, direction := ⟨0, -1⟩, speed := 3 }
    is_visible := true }

-- ------------------------------------------
-- Helper lemmas: pools
-- ------------------------------------------

/-- `activateFirstHidden` keeps the pool size. -/
theorem activateFirstHidden_length (l : List Bullet) (pos : Point) :
    (activateFirstHidden l pos).length = l.length := by
  induction l with
  | nil => rfl
  | cons b bs ih =>
    by_cases hb : b.is_visible <;> simp [activateFirstHidden, hb, ih]

/-- If every slot is visible, `activateFirstHidden` is the identity. -/
theorem activateFirstHidden_all_visible (l : List Bullet) (pos : Point)
    (h : ∀ b ∈ l, b.is_visible = true) : activateFirstHidden l pos = l := by
  induction l with
  | nil => rfl
  | cons b bs ih =>
    have hb : b.is_visible = true := h b (by simp)
    simp [activateFirstHidden, hb]
    exact ih fun x hx => h x (by simp [hx])

/-- `activateFirstHidden` on a pool split as `visible prefix ++ hidden slot
:: rest` activates exactly that slot. -/
theorem activateFirstHidden_split (l₁ : List Bullet) (b : Bullet) (l₂ : List Bullet)
    (pos : Point) (h₁ : ∀ x ∈ l₁, x.is_visible = true) (hb : b.is_visible = false) :
    activateFirstHidden (l₁ ++ b :: l₂) pos =
      l₁ ++ { b with body := { b.body with position := pos }, is_visible := true } :: l₂ := by
  induction l₁ with
  | nil => simp [activateFirstHidden, hb]
  | cons x xs ih =>
    have hx : x.is_visible = true := h₁ x (by simp)
    simp only [List.cons_append, activateFirstHidden, hx, if_pos]
    rw [List.append_eq, ih fun y hy => h₁ y (by simp [hy])]

/-- `Spell::spawn` keeps the pool size. -/
theorem spawn_length (s : Spell) (delta : ℚ) (pos : Point) :
    (s.spawn delta pos).bullets.length = s.bullets.length := by
  unfold Spell.spawn
  by_cases h : (s.shot_timer.ready delta).1 <;>
    simp [h, activateFirstHidden_length]

/-- The player-bullet pass keeps the pool size. -/
theorem playerBulletsFold_length (bs : List Bullet) (e : Option Enemy) :
    (playerBulletsFold bs e).1.length = bs.length := by
  induction bs generalizing e with
  | nil => rfl
  | cons b tl ih => simp [playerBulletsFold, ih]

/-- The enemy-bullet pass keeps the pool size. -/
theorem enemyBulletsFold_length (screen : Screen) (bs : List Bullet) (p : Option Player) :
    (enemyBulletsFold screen bs p).1.length = bs.length := by
  induction bs generalizing p with
  | nil => rfl
  | cons b tl ih => simp [enemyBulletsFold, ih]

/-- The player-bullet pass touches the enemy only through its health: the
enemy's bullet pool is carried through unchanged. -/
theorem playerBulletsFold_enemy_bullets (bs : List Bullet) (e : Option Enemy) :
    ((playerBulletsFold bs e).2).map (fun x => x.spell.bullets) =
      e.map (fun x => x.spell.bullets) := by
  induction bs generalizing e with
  | nil => rfl
  | cons b tl ih =>
    rw [playerBulletsFold, ih]
    unfold playerBulletStep
    by_cases hb : b.is_visible
    · cases e with
      | none => simp [hb]
      | some x => by_cases hc : (b.update).collided x.body.position enemyHitbox <;> simp [hb, hc]
    · simp [hb]

/-- The enemy-bullet pass touches the player only through its health. -/
theorem enemyBulletsFold_player_bullets (screen : Screen) (bs : List Bullet) (p : Option Player) :
    ((enemyBulletsFold screen bs p).2).map (fun x => x.spell.bullets) =
      p.map (fun x => x.spell.bullets) := by
  induction bs generalizing p with
  | nil => rfl
  | cons b tl ih =>
    rw [enemyBulletsFold, ih]
    unfold enemyBulletStep
    by_cases hb : b.is_visible
    · cases p with
      | none => simp [hb]
      | some x => by_cases hc : (b.update).collided x.body.position playerHitbox <;> simp [hb, hc]
    · simp [hb]

-- ------------------------------------------
-- Helper lemmas: decomposing the tick into its passes
-- ------------------------------------------

/-- The player block of `on_combat_update` (bullet advance+collide, spawn,
death check) is the composition of the three named player passes. -/
theorem playerBlock_eq (delta : ℚ) (t : State) :
    playerDeathPass (playerSpawnPass delta (playerBulletsPass t)) =
      (match t.player with
       | none => some t
       | some player =>
         let r := player.update delta t.enemy
         let player := r.1
         let s := { t with player := some player, enemy := r.2 }
         if player.health.is_alive then some s
         else
           match player.spell.bullets.head? with
           | none => none
           | some b =>
             some { s with
               particles := s.particles ++ deathParticles b.body.sprite player.body.position
               texts := s.texts ++ [DEATH_TEXT]
               player := none }) := by
  cases hp : t.player with
  | none => simp [playerBulletsPass, playerSpawnPass, playerDeathPass, hp]
  | some p =>
    simp only [playerBulletsPass, playerSpawnPass, playerDeathPass, hp, Player.update,
      Spell.spawn]

/-- The enemy block of `on_combat_update` (movement, bullet
advance+collide, spawn, death check) is the composition of the four named
enemy passes. -/
theorem enemyBlock_eq (delta : ℚ) (u : State) :
    enemyDeathPass (enemySpawnPass delta (enemyBulletsPass (enemyMovePass delta u))) =
      (match u.enemy with
       | none => some u
       | some enemy =>
         let r := enemy.update delta u.player u.screen
         let enemy := r.1
         let s := { u with enemy := some enemy, player := r.2 }
         if enemy.health.is_alive then some s
         else
           match enemy.spell.bullets.head? with
           | none => none
           | some b =>
             some { s with
               particles := s.particles ++ deathParticles b.body.sprite enemy.body.position
               texts := s.texts ++ [WIN_TEXT]
               enemy := none }) := by
  cases he : u.enemy with
  | none => simp [enemyMovePass, enemyBulletsPass, enemySpawnPass, enemyDeathPass, he]
  | some e =>
    simp only [enemyMovePass, enemyBulletsPass, enemySpawnPass, enemyDeathPass, he,
      Enemy.update, Spell.spawn]

/-- `State::on_combat_update` equals the composition of the named passes in
source order: player bullets → player spawn → player death → enemy movement
→ enemy bullets → enemy spawn → enemy death → particle aging (after the
initial input pass). -/
theorem tick_eq_passes (s : State) (input : Input) (delta : ℚ) :
    s.on_combat_update input delta =
      (playerDeathPass (playerSpawnPass delta (playerBulletsPass (inputPass input s)))).bind
        fun u =>
          (enemyDeathPass (enemySpawnPass delta (enemyBulletsPass (enemyMovePass delta u)))).map
            (particlesPass delta) := by
  unfold State.on_combat_update
  rw [playerBlock_eq]
  simp only [enemyBlock_eq]
  rfl


-- ------------------------------------------
-- Helper lemmas: pool sizes through the passes
-- ------------------------------------------

/-- `movePlayer` only moves the body: the player's spell is untouched. -/
theorem movePlayer_player_spell (d : Point) (t : State) :
    ((movePlayer d t).player).map (fun p => p.spell) = (t.player).map (fun p => p.spell) := by
  cases ht : t.player <;> simp [movePlayer, ht]

/-- `movePlayer` does not touch the enemy. -/
theorem movePlayer_enemy (d : Point) (t : State) :
    (movePlayer d t).enemy = t.enemy := by
  cases ht : t.player <;> simp [movePlayer, ht]

/-- The input pass does not touch any spell. -/
theorem inputPass_player_spell (input : Input) (s : State) :
    ((inputPass input s).player).map (fun p => p.spell) = (s.player).map (fun p => p.spell) := by
  unfold inputPass
  split_ifs <;> simp [movePlayer_player_spell]

/-- The input pass does not touch the enemy. -/
theorem inputPass_enemy (input : Input) (s : State) :
    (inputPass input s).enemy = s.enemy := by
  unfold inputPass
  split_ifs <;> simp [movePlayer_enemy]

/-- Pool-size invariant through the player-bullet pass. -/
theorem playerBulletsPass_inv (s : State) (np ne : ℕ)
    (hp : ∀ p, s.player = some p → p.spell.bullets.length = np)
    (he : ∀ e, s.enemy = some e → e.spell.bullets.length = ne) :
    (∀ p, (playerBulletsPass s).player = some p → p.spell.bullets.length = np) ∧
    (∀ e, (playerBulletsPass s).enemy = some e → e.spell.bullets.length = ne) := by
  cases hsp : s.player with
  | none =>
    have hid : playerBulletsPass s = s := by simp [playerBulletsPass, hsp]
    rw [hid]
    exact ⟨hp, he⟩
  | some p =>
    constructor
    · intro q hq
      simp only [playerBulletsPass, hsp, Option.some.injEq] at hq
      rw [← hq]
      simpa [playerBulletsFold_length] using hp p hsp
    · intro e hee
      simp only [playerBulletsPass, hsp] at hee
      have hmap := playerBulletsFold_enemy_bullets p.spell.bullets s.enemy
      rw [hee] at hmap
      cases hse : s.enemy with
      | none => rw [hse] at hmap; simp at hmap
      | some e0 =>
        rw [hse] at hmap
        simp at hmap
        rw [← he e0 hse, ← hmap]

/-- Pool-size invariant through the player-spawn pass. -/
theorem playerSpawnPass_inv (delta : ℚ) (s : State) (np ne : ℕ)
    (hp : ∀ p, s.player = some p → p.spell.bullets.length = np)
    (he : ∀ e, s.enemy = some e → e.spell.bullets.length = ne) :
    (∀ p, (playerSpawnPass delta s).player = some p → p.spell.bullets.length = np) ∧
    (∀ e, (playerSpawnPass delta s).enemy = some e → e.spell.bullets.length = ne) := by
  cases hsp : s.player with
  | none =>
    have hid : playerSpawnPass delta s = s := by simp [playerSpawnPass, hsp]
    rw [hid]
    exact ⟨hp, he⟩
  | some p =>
    refine ⟨fun q hq => ?_, fun e hee => ?_⟩
    · simp only [playerSpawnPass, hsp, Option.some.injEq] at hq
      rw [← hq]
      simpa [spawn_length] using hp p hsp
    · simp only [playerSpawnPass, hsp] at hee
      exact he e hee

/-- Pool-size invariant through the player-death pass (when it does not
panic). -/
theorem playerDeathPass_inv (s s' : State) (np ne : ℕ)
    (h : playerDeathPass s = some s')
    (hp : ∀ p, s.player = some p → p.spell.bullets.length = np)
    (he : ∀ e, s.enemy = some e → e.spell.bullets.length = ne) :
    (∀ p, s'.player = some p → p.spell.bullets.length = np) ∧
    (∀ e, s'.enemy = some e → e.spell.bullets.length = ne) := by
  cases hsp : s.player with
  | none =>
    simp only [playerDeathPass, hsp, Option.some.injEq] at h
    rw [← h]
    exact ⟨hp, he⟩
  | some p =>
    simp only [playerDeathPass, hsp] at h
    by_cases halive : p.health.is_alive
    · rw [if_pos halive] at h
      cases h
      exact ⟨hp, he⟩
    · rw [if_neg halive] at h
      cases hh : p.spell.bullets.head? with
      | none => rw [hh] at h; cases h
      | some b =>
        rw [hh] at h
        cases h
        exact ⟨by simp, he⟩

/-- Pool-size invariant through the enemy-move pass. -/
theorem enemyMovePass_inv (delta : ℚ) (s : State) (np ne : ℕ)
    (hp : ∀ p, s.player = some p → p.spell.bullets.length = np)
    (he : ∀ e, s.enemy = some e → e.spell.bullets.length = ne) :
    (∀ p, (enemyMovePass delta s).player = some p → p.spell.bullets.length = np) ∧
    (∀ e, (enemyMovePass delta s).enemy = some e → e.spell.bullets.length = ne) := by
  cases hse : s.enemy with
  | none =>
    have hid : enemyMovePass delta s = s := by simp [enemyMovePass, hse]
    rw [hid]
    exact ⟨hp, he⟩
  | some e =>
    refine ⟨fun q hq => ?_, fun e2 hee => ?_⟩
    · simp only [enemyMovePass, hse] at hq
      exact hp q hq
    · simp only [enemyMovePass, hse, Option.some.injEq] at hee
      rw [← hee]
      simpa [Enemy.move_auto] using he e hse

/-- Pool-size invariant through the enemy-bullet pass. -/
theorem enemyBulletsPass_inv (s : State) (np ne : ℕ)
    (hp : ∀ p, s.player = some p → p.spell.bullets.length = np)
    (he : ∀ e, s.enemy = some e → e.spell.bullets.length = ne) :
    (∀ p, (enemyBulletsPass s).player = some p → p.spell.bullets.length = np) ∧
    (∀ e, (enemyBulletsPass s).enemy = some e → e.spell.bullets.length = ne) := by
  cases hse : s.enemy with
  | none =>
    have hid : enemyBulletsPass s = s := by simp [enemyBulletsPass, hse]
    rw [hid]
    exact ⟨hp, he⟩
  | some e =>
    constructor
    · intro q hq
      simp only [enemyBulletsPass, hse] at hq
      have hmap := enemyBulletsFold_player_bullets s.screen e.spell.bullets s.player
      rw [hq] at hmap
      cases hsp : s.player with
      | none => rw [hsp] at hmap; simp at hmap
      | some p0 =>
        rw [hsp] at hmap
        simp at hmap
        rw [← hp p0 hsp, ← hmap]
    · intro e2 hee
      simp only [enemyBulletsPass, hse, Option.some.injEq] at hee
      rw [← hee]
      simpa [enemyBulletsFold_length] using he e hse

/-- Pool-size invariant through the enemy-spawn pass. -/
theorem enemySpawnPass_inv (delta : ℚ) (s : State) (np ne : ℕ)
    (hp : ∀ p, s.player = some p → p.spell.bullets.length = np)
    (he : ∀ e, s.enemy = some e → e.spell.bullets.length = ne) :
    (∀ p, (enemySpawnPass delta s).player = some p → p.spell.bullets.length = np) ∧
    (∀ e, (enemySpawnPass delta s).enemy = some e → e.spell.bullets.length = ne) := by
  cases hse : s.enemy with
  | none =>
    have hid : enemySpawnPass delta s = s := by simp [enemySpawnPass, hse]
    rw [hid]
    exact ⟨hp, he⟩
  | some e =>
    refine ⟨fun q hq => ?_, fun e2 hee => ?_⟩
    · simp only [enemySpawnPass, hse] at hq
      exact hp q hq
    · simp only [enemySpawnPass, hse, Option.some.injEq] at hee
      rw [← hee]
      simpa [spawn_length] using he e hse

/-- Pool-size invariant through the enemy-death pass. -/
theorem enemyDeathPass_inv (s s' : State) (np ne : ℕ)
    (h : enemyDeathPass s = some s')
    (hp : ∀ p, s.player = some p → p.spell.bullets.length = np)
    (he : ∀ e, s.enemy = some e → e.spell.bullets.length = ne) :
    (∀ p, s'.player = some p → p.spell.bullets.length = np) ∧
    (∀ e, s'.enemy = some e → e.spell.bullets.length = ne) := by
  cases hse : s.enemy with
  | none =>
    simp only [enemyDeathPass, hse, Option.some.injEq] at h
    rw [← h]
    exact ⟨hp, he⟩
  | some e =>
    simp only [enemyDeathPass, hse] at h
    by_cases halive : e.health.is_alive
    · rw [if_pos halive] at h
      cases h
      exact ⟨hp, he⟩
    · rw [if_neg halive] at h
      cases hh : e.spell.bullets.head? with
      | none => rw [hh] at h; cases h
      | some b =>
        rw [hh] at h
        cases h
        exact ⟨hp, by simp⟩

/-- Pool-size invariant through one whole combat tick. -/
theorem tick_pools (s s' : State) (input : Input) (delta : ℚ) (np ne : ℕ)
    (h : s.on_combat_update input delta = some s')
    (hp : ∀ p, s.player = some p → p.spell.bullets.length = np)
    (he : ∀ e, s.enemy = some e → e.spell.bullets.length = ne) :
    (∀ p, s'.player = some p → p.spell.bullets.length = np) ∧
    (∀ e, s'.enemy = some e → e.spell.bullets.length = ne) := by
  rw [tick_eq_passes] at h
  obtain ⟨u, hu, hmap⟩ := Option.bind_eq_some.mp h
  obtain ⟨v, hv, hpart⟩ := Option.map_eq_some'.mp hmap
  have h0p := inputPass_player_spell input s
  have h0e := inputPass_enemy input s
  have hinp : ∀ p, (inputPass input s).player = some p → p.spell.bullets.length = np := by
    intro p hpp
    rw [hpp] at h0p
    cases hsp : s.player with
    | none => rw [hsp] at h0p; simp at h0p
    | some p0 =>
      rw [hsp] at h0p
      simp at h0p
      rw [show p.spell = p0.spell from h0p]
      exact hp p0 hsp
  have hine : ∀ e, (inputPass input s).enemy = some e → e.spell.bullets.length = ne := by
    intro e hee
    rw [h0e] at hee
    exact he e hee
  have h1 := playerBulletsPass_inv (inputPass input s) np ne hinp hine
  have h2 := playerSpawnPass_inv delta _ np ne h1.1 h1.2
  have h3 := playerDeathPass_inv _ u np ne hu h2.1 h2.2
  have h4 := enemyMovePass_inv delta u np ne h3.1 h3.2
  have h5 := enemyBulletsPass_inv _ np ne h4.1 h4.2
  have h6 := enemySpawnPass_inv delta _ np ne h5.1 h5.2
  have h7 := enemyDeathPass_inv _ v np ne hv h6.1 h6.2
  rw [← hpart]
  exact ⟨h7.1, h7.2⟩

/-- Pool-size invariant through any sequence of combat ticks. -/
theorem runTrace_pools (trace : List (Input × ℚ)) (s s' : State) (np ne : ℕ)
    (h : runTrace trace s = some s')
    (hp : ∀ p, s.player = some p → p.spell.bullets.length = np)
    (he : ∀ e, s.enemy = some e → e.spell.bullets.length = ne) :
    (∀ p, s'.player = some p → p.spell.bullets.length = np) ∧
    (∀ e, s'.enemy = some e → e.spell.bullets.length = ne) := by
  induction trace generalizing s with
  | nil =>
    simp only [runTrace, Option.some.injEq] at h
    rw [← h]
    exact ⟨hp, he⟩
  | cons t ts ih =>
    simp only [runTrace] at h
    obtain ⟨u, hu, hrest⟩ := Option.bind_eq_some.mp h
    have h1 := tick_pools s u t.1 t.2 np ne hu hp he
    exact ih u hrest h1.1 h1.2


-- ------------------------------------------
-- Helper lemmas: death-pass totality
-- ------------------------------------------

/-- The player-death pass cannot panic when the player's pool is
non-empty. -/
theorem playerDeathPass_total (s : State)
    (h : ∀ p, s.player = some p → p.spell.bullets ≠ []) :
    ∃ u, playerDeathPass s = some u := by
  cases hsp : s.player with
  | none => exact ⟨s, by simp [playerDeathPass, hsp]⟩
  | some p =>
    by_cases halive : p.health.is_alive
    · exact ⟨s, by simp [playerDeathPass, hsp, halive]⟩
    · cases hb : p.spell.bullets with
      | nil => exact absurd hb (h p hsp)
      | cons b tl =>
        have hs : (playerDeathPass s).isSome := by
          simp [playerDeathPass, hsp, halive, hb]
        exact Option.isSome_iff_exists.mp hs

/-- The enemy-death pass cannot panic when the enemy's pool is non-empty. -/
theorem enemyDeathPass_total (s : State)
    (h : ∀ e, s.enemy = some e → e.spell.bullets ≠ []) :
    ∃ u, enemyDeathPass s = some u := by
  cases hse : s.enemy with
  | none => exact ⟨s, by simp [enemyDeathPass, hse]⟩
  | some e =>
    by_cases halive : e.health.is_alive
    · exact ⟨s, by simp [enemyDeathPass, hse, halive]⟩
    · cases hb : e.spell.bullets with
      | nil => exact absurd hb (h e hse)
      | cons b tl =>
        have hs : (enemyDeathPass s).isSome := by
          simp [enemyDeathPass, hse, halive, hb]
        exact Option.isSome_iff_exists.mp hs

/-- A combat tick cannot panic when every present entity has a non-empty
bullet pool. -/
theorem tick_total (s : State) (input : Input) (delta : ℚ)
    (hp : ∀ p, s.player = some p → p.spell.bullets ≠ [])
    (he : ∀ e, s.enemy = some e → e.spell.bullets ≠ []) :
    ∃ s', s.on_combat_update input delta = some s' := by
  rw [tick_eq_passes]
  obtain ⟨np, hnp, hp2⟩ :
      ∃ np, 0 < np ∧ ∀ p, s.player = some p → p.spell.bullets.length = np := by
    cases hsp : s.player with
    | none => exact ⟨1, one_pos, fun p hq => by cases hq⟩
    | some p =>
      refine ⟨p.spell.bullets.length, List.length_pos.mpr (hp p hsp), fun q hq => ?_⟩
      cases hq
      rfl
  obtain ⟨ne, hne, he2⟩ :
      ∃ ne, 0 < ne ∧ ∀ e, s.enemy = some e → e.spell.bullets.length = ne := by
    cases hse : s.enemy with
    | none => exact ⟨1, one_pos, fun e hq => by cases hq⟩
    | some e =>
      refine ⟨e.spell.bullets.length, List.length_pos.mpr (he e hse), fun q hq => ?_⟩
      cases hq
      rfl
  have h0p := inputPass_player_spell input s
  have hinp : ∀ p, (inputPass input s).player = some p → p.spell.bullets.length = np := by
    intro p hpp
    rw [hpp] at h0p
    cases hsp : s.player with
    | none => rw [hsp] at h0p; simp at h0p
    | some p0 =>
      rw [hsp] at h0p
      simp at h0p
      rw [show p.spell = p0.spell from h0p]
      exact hp2 p0 hsp
  have hine : ∀ e, (inputPass input s).enemy = some e → e.spell.bullets.length = ne := by
    intro e hee
    rw [inputPass_enemy input s] at hee
    exact he2 e hee
  have h1 := playerBulletsPass_inv (inputPass input s) np ne hinp hine
  have h2 := playerSpawnPass_inv delta _ np ne h1.1 h1.2
  obtain ⟨u, hu⟩ := playerDeathPass_total _ (fun p hpp => by
    have hl := h2.1 p hpp
    intro hnil
    rw [hnil] at hl
    simp at hl
    omega)
  have h3 := playerDeathPass_inv _ u np ne hu h2.1 h2.2
  have h4 := enemyMovePass_inv delta u np ne h3.1 h3.2
  have h5 := enemyBulletsPass_inv _ np ne h4.1 h4.2
  have h6 := enemySpawnPass_inv delta _ np ne h5.1 h5.2
  obtain ⟨v, hv⟩ := enemyDeathPass_total _ (fun e hee => by
    have hl := h6.2 e hee
    intro hnil
    rw [hnil] at hl
    simp at hl
    omega)
  exact ⟨particlesPass delta v, by rw [hu]; simp [hv]⟩

-- ------------------------------------------
-- Helper lemmas: timer accumulation
-- ------------------------------------------

/-- Running invariant of `runTimer`: each firing consumes strictly more
than one period (the residual is discarded on reset), so
`fires · delay + residual ≤ accumulated + sum of deltas`. -/
theorem runTimer_invariant (ds : List ℚ) (t : Timer)
    (ht : 0 ≤ t.time) (hd : ∀ d ∈ ds, 0 ≤ d) :
    ((runTimer t ds).2 : ℚ) * t.delay + (runTimer t ds).1.time ≤ t.time + ds.sum ∧
    0 ≤ (runTimer t ds).1.time := by
  induction ds generalizing t with
  | nil => simpa [runTimer] using ht
  | cons d tl ih =>
    have hd0 : 0 ≤ d := hd d (by simp)
    have hdtl : ∀ x ∈ tl, 0 ≤ x := fun x hx => hd x (by simp [hx])
    by_cases hr : t.delay < t.time + d
    · have hready : t.ready d = (true, { t with time := 0 }) := by simp [Timer.ready, hr]
      have h2 := ih { t with time := 0 } le_rfl hdtl
      simp only [runTimer, hready, List.sum_cons, if_pos]
      dsimp only at h2 ⊢
      push_cast
      exact ⟨by nlinarith [h2.1, h2.2], h2.2⟩
    · have hready : t.ready d = (false, { t with time := t.time + d }) := by simp [Timer.ready, hr]
      have h2 := ih { t with time := t.time + d } (by dsimp only; linarith) hdtl
      simp only [runTimer, hready, List.sum_cons, if_neg]
      dsimp only at h2 ⊢
      push_cast
      exact ⟨by nlinarith [h2.1], h2.2⟩

-- ------------------------------------------
-- Helper lemmas: collision
-- ------------------------------------------

/-- The squared distance is non-negative. -/
theorem distSq_nonneg (a b : Point) : 0 ≤ distSq a b := by
  unfold distSq
  positivity

/-- The executable `Bullet.collided` agrees with the source's comparison of
the Euclidean (real square-root) distance against the hitbox radius. -/
theorem collided_iff_sqrt_lt (b : Bullet) (other : Point) (r : ℚ) :
    b.collided other r = true ↔
      Real.sqrt ((distSq b.body.position other : ℚ) : ℝ) < (r : ℝ) := by
  unfold Bullet.collided
  by_cases hr : 0 < r
  · have hr2 : (0 : ℝ) < (r : ℝ) := by exact_mod_cast hr
    rw [Real.sqrt_lt' hr2]
    constructor
    · intro h
      simp only [Bool.and_eq_true, decide_eq_true_eq] at h
      exact_mod_cast h.2
    · intro h
      simp only [Bool.and_eq_true, decide_eq_true_eq]
      exact ⟨hr, by exact_mod_cast h⟩
  · have hr2 : (r : ℝ) ≤ 0 := by exact_mod_cast le_of_not_lt hr
    constructor
    · intro h
      simp only [Bool.and_eq_true, decide_eq_true_eq] at h
      exact absurd h.1 hr
    · intro h
      exact absurd (lt_of_le_of_lt (Real.sqrt_nonneg _) h) (not_lt.mpr hr2)

-- ------------------------------------------
-- Helper lemmas: the end-to-end firing scenario
-- ------------------------------------------

/-- After two ticks of `0.1` seconds the scenario's bullet has just been
spawned: visible at `(350,350)`, with the fire timer reset. On the first
tick the timer reads `0.1 > 0.1` (strict) and does not fire. -/
theorem scenario_base (speed : ℚ) :
    runTicks noInput (1/10) 2 (scenarioState speed) = some (scenarioAfter speed 0) := by
  simp [runTicks, State.on_combat_update, inputPass, noInput, movePlayer, Player.update,
    playerBulletsFold, playerBulletStep, Spell.spawn, Timer.ready, activateFirstHidden,
    particlesRun, Player.new, Spell.new, Bullet.new, Body.new, Timer.new, scenarioState,
    scenarioAfter, Health.is_alive, Bullet.update, DIR_UP]

/-- One further tick of the scenario moves the bullet down by one unit of
`speed` and alternates the fire timer, as long as the bullet stays on
screen. -/
theorem scenario_step (speed : ℚ) (j : ℕ) (hj : j < 9) (h0 : 0 ≤ speed)
    (h9 : 9 * speed ≤ 350) :
    (scenarioAfter speed j).on_combat_update noInput (1/10) =
      some (scenarioAfter speed (j + 1)) := by
  have hj9 : ((j : ℚ) + 1) ≤ 9 := by exact_mod_cast Nat.succ_le_of_lt hj
  have hy : 0 ≤ 350 - ((j : ℚ) + 1) * speed := by nlinarith
  have hbound : ¬((350 : ℚ) - (j : ℚ) * speed < speed) := by nlinarith
  have h350 : ¬((350 : ℚ) < 0) := by norm_num
  rcases Nat.mod_two_eq_zero_or_one j with hpar | hpar
  · have hpar1 : (j + 1) % 2 = 1 := by omega
    simp [State.on_combat_update, inputPass, noInput, movePlayer, Player.update,
      playerBulletsFold, playerBulletStep, Spell.spawn, Timer.ready, activateFirstHidden,
      particlesRun, Health.is_alive, Bullet.update, scenarioAfter, hpar, hpar1, hbound, h350]
    ring_nf
  · have hpar1 : (j + 1) % 2 = 0 := by omega
    simp [State.on_combat_update, inputPass, noInput, movePlayer, Player.update,
      playerBulletsFold, playerBulletStep, Spell.spawn, Timer.ready, activateFirstHidden,
      particlesRun, Health.is_alive, Bullet.update, scenarioAfter, hpar, hpar1, hbound, h350]
    ring_nf

/-- Splitting a run of ticks. -/
theorem runTicks_add (input : Input) (delta : ℚ) (m n : ℕ) (s : State) :
    runTicks input delta (m + n) s =
      (runTicks input delta m s).bind (runTicks input delta n) := by
  induction m generalizing s with
  | zero => simp [runTicks]
  | succ k ih =>
    have hmn : k + 1 + n = (k + n) + 1 := by omega
    rw [hmn]
    simp only [runTicks]
    cases h : s.on_combat_update input delta with
    | none => simp
    | some u => simpa using ih u

/-- Iterating `scenario_step`. -/
theorem scenario_chain (speed : ℚ) (h0 : 0 ≤ speed) (h9 : 9 * speed ≤ 350) :
    ∀ k, k ≤ 9 →
      runTicks noInput (1/10) k (scenarioAfter speed 0) = some (scenarioAfter speed k) := by
  intro k
  induction k with
  | zero => simp [runTicks]
  | succ m ih =>
    intro hm
    rw [runTicks_add noInput (1/10) m 1, ih (by omega)]
    simp only [Option.some_bind, runTicks]
    rw [scenario_step speed m (by omega) h0 h9]
    rfl

/-- Eleven ticks of the scenario: two to the spawn, then nine movement
steps. -/
theorem scenario_eleven (speed : ℚ) (h0 : 0 ≤ speed) (h9 : 9 * speed ≤ 350) :
    runTicks noInput (1/10) 11 (scenarioState speed) = some (scenarioAfter speed 9) := by
  rw [show (11 : ℕ) = 2 + 9 from rfl, runTicks_add, scenario_base speed]
  simpa using scenario_chain speed h0 h9 9 le_rfl

-- ------------------------------------------
-- Helper lemmas: small facts about the operations
-- ------------------------------------------

/-- `movePlayer` keeps the player's health and spell. -/
theorem movePlayer_player_hs (d : Point) (t : State) :
    ((movePlayer d t).player).map (fun p => (p.health, p.spell)) =
      (t.player).map (fun p => (p.health, p.spell)) := by
  cases ht : t.player <;> simp [movePlayer, ht]

/-- The input pass keeps the player's health and spell. -/
theorem inputPass_player_hs (input : Input) (s : State) :
    ((inputPass input s).player).map (fun p => (p.health, p.spell)) =
      (s.player).map (fun p => (p.health, p.spell)) := by
  unfold inputPass
  split_ifs <;> simp [movePlayer_player_hs]

/-- Spawning from an empty pool leaves it empty. -/
theorem spawn_nil (t : Timer) (delta : ℚ) (pos : Point) :
    (Spell.spawn { bullets := [], shot_timer := t } delta pos).bullets = [] := by
  unfold Spell.spawn
  dsimp only
  split_ifs <;> simp [activateFirstHidden]

/-- Damage sequences only lower `health`. -/
theorem applyDamages_le (ds : List ℕ) (h : Health) :
    (applyDamages h ds).health ≤ h.health := by
  induction ds generalizing h with
  | nil => exact le_rfl
  | cons d tl ih =>
    calc (applyDamages h (d :: tl)).health
        = (applyDamages (h.take_damage d) tl).health := rfl
      _ ≤ (h.take_damage d).health := ih _
      _ ≤ h.health := Nat.sub_le _ _

/-- Damage sequences keep `max_health`. -/
theorem applyDamages_max (ds : List ℕ) (h : Health) :
    (applyDamages h ds).max_health = h.max_health := by
  induction ds generalizing h with
  | nil => rfl
  | cons d tl ih => exact (ih (h.take_damage d)).trans rfl

/-- Advancing a bullet does not change its visibility. -/
theorem Bullet.update_is_visible (b : Bullet) : (b.update).is_visible = b.is_visible := rfl

-- ------------------------------------------
-- Claim theorems
-- ------------------------------------------

/-- C1 (counterexample): on a concrete combat state the tick composed in
the spec's order (enemy phases first) differs from the source's
`on_combat_update` — the enemy drifts out of collision range before the
player bullets are tested, so the enemy takes no damage in spec order but
does in source order. -/
theorem spec_order_differs_on_probe :
    specOrderTick noInput (1/10) orderProbeState ≠
      State.on_combat_update orderProbeState noInput (1/10) := by
  norm_num [specOrderTick, State.on_combat_update, inputPass, noInput, movePlayer,
    enemyMovePass, enemyBulletsPass, enemySpawnPass, enemyDeathPass, playerBulletsPass,
    playerSpawnPass, playerDeathPass, particlesPass, particlesRun, Player.update, Enemy.update,
    Enemy.move_auto, playerBulletsFold, playerBulletStep, enemyBulletsFold, enemyBulletStep,
    Spell.spawn, Timer.ready, Timer.new, activateFirstHidden, Bullet.update, Bullet.collided,
    Bullet.new, Body.new, Health.is_alive, Health.take_damage, distSq, playerHitbox, enemyHitbox,
    orderProbeState, bulletSprite, playerSprite, DIR_UP, DIR_DOWN, DIR_LEFT, DIR_RIGHT]

/-- C1 (amended): each combat tick performs, in order, the input-driven
player movement, player bullets advance+collide against the enemy, player
spawn, player death/removal, enemy movement-pattern update, enemy bullets
advance+collide against the player, enemy spawn, enemy death/removal, and
finally the particle aging pass. -/
theorem combat_tick_pass_order (s : State) (input : Input) (delta : ℚ) :
    s.on_combat_update input delta =
      (playerDeathPass (playerSpawnPass delta (playerBulletsPass (inputPass input s)))).bind
        fun u =>
          (enemyDeathPass (enemySpawnPass delta (enemyBulletsPass (enemyMovePass delta u)))).map
            (particlesPass delta) :=
  tick_eq_passes s input delta

/-- C2 (counterexample): a Visible player bullet strictly inside the
vertical play area (`0 ≤ y ≤ 800`) is nevertheless retired by the
per-bullet pass, because its `x` is negative — contradicting the claim that
retirement happens exactly on vertical crossings and never on horizontal
ones. -/
theorem retired_inside_vertical_bounds :
    leftOutBullet.is_visible = true ∧
    0 ≤ (leftOutBullet.update).body.position.y ∧
    (leftOutBullet.update).body.position.y ≤ 800 ∧
    (playerBulletStep none leftOutBullet).1.is_visible = false := by
  norm_num [leftOutBullet, Bullet.update, playerBulletStep, bulletSprite]

/-- C2 (amended): with no collision target, a Visible player bullet stays
visible after its advance exactly when neither `x < 0` nor `y < 0` holds at
the new position, while a Visible enemy bullet stays visible exactly when
neither `x < 0` nor `y > screen.height` holds: the left horizontal bound
retires bullets of both factions and the vertical rules differ between
factions. -/
theorem bullet_retirement_rules (b : Bullet) (screen : Screen) (hb : b.is_visible = true) :
    ((playerBulletStep none b).1.is_visible = true ↔
      ¬((b.update).body.position.x < 0 ∨ (b.update).body.position.y < 0)) ∧
    ((enemyBulletStep screen none b).1.is_visible = true ↔
      ¬((b.update).body.position.x < 0 ∨ screen.height < (b.update).body.position.y)) := by
  constructor
  · unfold playerBulletStep
    dsimp only
    simp only [hb, if_pos]
    split_ifs with hcond <;> simp [hcond, hb, Bullet.update_is_visible]
  · unfold enemyBulletStep
    dsimp only
    simp only [hb, if_pos]
    split_ifs with hcond <;> simp [hcond, hb, Bullet.update_is_visible]

/-- C2 (witness): the retirement rules instantiated on a concrete visible
bullet and the `800`-high screen. -/
theorem bullet_retirement_rules_witness :
    boundaryBullet.is_visible = true ∧
    (((playerBulletStep none boundaryBullet).1.is_visible = true ↔
      ¬((boundaryBullet.update).body.position.x < 0 ∨
        (boundaryBullet.update).body.position.y < 0)) ∧
     ((enemyBulletStep ⟨800, 800⟩ none boundaryBullet).1.is_visible = true ↔
      ¬((boundaryBullet.update).body.position.x < 0 ∨
        (⟨800, 800⟩ : Screen).height < (boundaryBullet.update).body.position.y))) :=
  ⟨rfl, bullet_retirement_rules boundaryBullet ⟨800, 800⟩ rfl⟩

/-- C3 (counterexample): with period `P = 1/10`, the delta sequence
`[0.09, 0.09, 0.09, 0.09]` (each delta non-negative and at most `P`, sum
`0.36`) fires the timer only twice, not `⌊0.36 / 0.1⌋ = 3` times: the
residual accumulated time is discarded at each firing, so the firing count
is not a function of the sum alone. -/
theorem timer_chunking_fails :
    (∀ d ∈ [(9:ℚ)/100, 9/100, 9/100, 9/100], 0 ≤ d ∧ d ≤ 1/10) ∧
    ([(9:ℚ)/100, 9/100, 9/100, 9/100].sum = 9/25) ∧
    (⌊((9:ℚ)/25) / (1/10)⌋ = 3) ∧
    (runTimer (Timer.new (1/10)) [9/100, 9/100, 9/100, 9/100]).2 = 2 := by
  refine ⟨by norm_num, by norm_num, ?_, ?_⟩
  · norm_num [Int.floor_eq_iff]
  · norm_num [runTimer, Timer.ready, Timer.new]

/-- C3 (amended): for every period `P > 0` and every sequence of deltas
that are non-negative and at most `P`, a fresh timer fires at most
`⌊sum / P⌋` times (equality can fail, as the counterexample shows). -/
theorem timer_fires_at_most_floor (P : ℚ) (ds : List ℚ) (hP : 0 < P)
    (hd : ∀ d ∈ ds, 0 ≤ d ∧ d ≤ P) :
    ((runTimer (Timer.new P) ds).2 : ℤ) ≤ ⌊ds.sum / P⌋ := by
  have hinv := runTimer_invariant ds (Timer.new P)
    (by simp [Timer.new]) (fun d hdm => (hd d hdm).1)
  have hk : ((runTimer (Timer.new P) ds).2 : ℚ) * P ≤ ds.sum := by
    have h1 := hinv.1
    have h2 := hinv.2
    simp only [Timer.new] at h1 h2 ⊢
    linarith
  rw [Int.le_floor]
  rw [le_div_iff hP]
  push_cast
  exact hk

/-- C3 (witness): the bound instantiated at `P = 1/10` with deltas
`[0.09, 0.09]`. -/
theorem timer_fires_at_most_floor_witness :
    (0 : ℚ) < 1/10 ∧ (∀ d ∈ [(9:ℚ)/100, 9/100], 0 ≤ d ∧ d ≤ 1/10) ∧
    ((runTimer (Timer.new (1/10)) [(9:ℚ)/100, 9/100]).2 : ℤ) ≤
      ⌊[(9:ℚ)/100, 9/100].sum / (1/10)⌋ :=
  ⟨by norm_num, by norm_num,
    timer_fires_at_most_floor (1/10) [(9:ℚ)/100, 9/100] (by norm_num) (by norm_num)⟩

/-- C4 (counterexample): in the firing scenario with bullet speed `10`,
after exactly one `0.1`-second tick no bullet is Visible: the timer
comparison is strict (`0.1 > 0.1` is false), so the first spawn happens on
the second tick, not the first. -/
theorem one_tick_spawns_nothing :
    (runTicks noInput (1/10) 1 (scenarioState 10)).map
      (fun s => s.player.map (fun p => p.spell.bullets.countP Bullet.is_visible)) =
      some (some 0) := by
  norm_num [runTicks, State.on_combat_update, inputPass, noInput, movePlayer, Player.update,
    playerBulletsFold, playerBulletStep, Spell.spawn, Timer.ready, Timer.new,
    activateFirstHidden, particlesRun, Player.new, Spell.new, Bullet.new, Body.new,
    scenarioState, Health.is_alive, Bullet.update, DIR_UP, List.countP, List.countP.go]

/-- C4 (amended): in the firing scenario (player fixed at `(350,350)`,
upward bullets of non-negative speed with `9·speed ≤ 350`, `0.1`-second
cooldown, `0.1`-second ticks), after exactly two ticks the single bullet is
Visible at `(350,350)`, and after nine more ticks it is still Visible at
`(350, 350 − 9·speed)`, on screen for height `800`. -/
theorem scenario_two_ticks_then_nine (speed : ℚ) (h0 : 0 ≤ speed) (h9 : 9 * speed ≤ 350) :
    (∃ s p, runTicks noInput (1/10) 2 (scenarioState speed) = some s ∧
      s.player = some p ∧
      p.spell.bullets.map Bullet.is_visible = [true] ∧
      p.spell.bullets.map (fun b => b.body.position) = [⟨350, 350⟩]) ∧
    (∃ s p, runTicks noInput (1/10) 11 (scenarioState speed) = some s ∧
      s.player = some p ∧
      p.spell.bullets.map Bullet.is_visible = [true] ∧
      p.spell.bullets.map (fun b => b.body.position) = [⟨350, 350 - 9 * speed⟩] ∧
      0 ≤ (350 : ℚ) - 9 * speed ∧ (350 : ℚ) - 9 * speed ≤ 800) := by
  constructor
  · refine ⟨scenarioAfter speed 0, _, scenario_base speed, rfl, by simp [scenarioAfter], ?_⟩
    simp [scenarioAfter]
  · refine ⟨scenarioAfter speed 9, _, scenario_eleven speed h0 h9, rfl,
      by simp [scenarioAfter], ?_, ?_, ?_⟩
    · simp [scenarioAfter]
    · linarith
    · linarith

/-- C4 (witness): the amended scenario at speed `10`. -/
theorem scenario_two_ticks_then_nine_witness :
    (0 : ℚ) ≤ 10 ∧ 9 * (10 : ℚ) ≤ 350 ∧
    ((∃ s p, runTicks noInput (1/10) 2 (scenarioState 10) = some s ∧
      s.player = some p ∧
      p.spell.bullets.map Bullet.is_visible = [true] ∧
      p.spell.bullets.map (fun b => b.body.position) = [⟨350, 350⟩]) ∧
    (∃ s p, runTicks noInput (1/10) 11 (scenarioState 10) = some s ∧
      s.player = some p ∧
      p.spell.bullets.map Bullet.is_visible = [true] ∧
      p.spell.bullets.map (fun b => b.body.position) = [⟨350, 350 - 9 * 10⟩] ∧
      0 ≤ (350 : ℚ) - 9 * 10 ∧ (350 : ℚ) - 9 * 10 ≤ 800)) :=
  ⟨by norm_num, by norm_num, scenario_two_ticks_then_nine 10 (by norm_num) (by norm_num)⟩

/-- C5 (confirmed): collision compares the Euclidean distance (the real
square root of `distSq`) against the fixed target-specific hitbox radius
with an exclusive boundary — distance exactly the radius does not collide,
strictly closer does — and the radius used when the player is the target
(`25`) is smaller than when the enemy is the target (`100`). -/
theorem collision_exclusive_asymmetric (b : Bullet) (target : Point) :
    (∀ r : ℚ, b.collided target r = true ↔
        Real.sqrt ((distSq b.body.position target : ℚ) : ℝ) < (r : ℝ)) ∧
    (distSq b.body.position target = playerHitbox ^ 2 →
      b.collided target playerHitbox = false) ∧
    (distSq b.body.position target < playerHitbox ^ 2 →
      b.collided target playerHitbox = true) ∧
    (distSq b.body.position target = enemyHitbox ^ 2 →
      b.collided target enemyHitbox = false) ∧
    (distSq b.body.position target < enemyHitbox ^ 2 →
      b.collided target enemyHitbox = true) ∧
    playerHitbox < enemyHitbox := by
  refine ⟨fun r => collided_iff_sqrt_lt b target r, ?_, ?_, ?_, ?_,
    by norm_num [playerHitbox, enemyHitbox]⟩
  · intro h
    simp [Bullet.collided, h]
  · intro h
    simp [Bullet.collided, h, show (0:ℚ) < playerHitbox by norm_num [playerHitbox]]
  · intro h
    simp [Bullet.collided, h]
  · intro h
    simp [Bullet.collided, h, show (0:ℚ) < enemyHitbox by norm_num [enemyHitbox]]

/-- C5 (witness): a bullet at distance exactly `25` from the target does
not collide at the player radius, and the same pair collides at the enemy
radius. -/
theorem collision_exclusive_asymmetric_witness :
    distSq boundaryBullet.body.position boundaryTarget = playerHitbox ^ 2 ∧
    boundaryBullet.collided boundaryTarget playerHitbox = false ∧
    distSq boundaryBullet.body.position boundaryTarget < enemyHitbox ^ 2 ∧
    boundaryBullet.collided boundaryTarget enemyHitbox = true := by
  have h1 : distSq boundaryBullet.body.position boundaryTarget = playerHitbox ^ 2 := by
    norm_num [distSq, boundaryBullet, boundaryTarget, playerHitbox, bulletSprite]
  have h2 : distSq boundaryBullet.body.position boundaryTarget < enemyHitbox ^ 2 := by
    norm_num [distSq, boundaryBullet, boundaryTarget, enemyHitbox, bulletSprite]
  exact ⟨h1, (collision_exclusive_asymmetric boundaryBullet boundaryTarget).2.1 h1, h2,
    (collision_exclusive_asymmetric boundaryBullet boundaryTarget).2.2.2.2.1 h2⟩

/-- C6 (confirmed): when the cooldown timer is ready, `spawn` activates
exactly the first Hidden slot in pool order, setting it Visible at the
given origin and leaving every other slot unchanged; when every slot is
Visible it is a no-op on the pool. -/
theorem spawn_first_hidden_slot (s : Spell) (delta : ℚ) (pos : Point)
    (hready : s.shot_timer.delay < s.shot_timer.time + delta) :
    (∀ l₁ b l₂, s.bullets = l₁ ++ b :: l₂ → (∀ x ∈ l₁, x.is_visible = true) →
      b.is_visible = false →
      (s.spawn delta pos).bullets =
        l₁ ++ { b with body := { b.body with position := pos }, is_visible := true } :: l₂) ∧
    ((∀ x ∈ s.bullets, x.is_visible = true) → (s.spawn delta pos).bullets = s.bullets) := by
  have hsp : (s.spawn delta pos).bullets = activateFirstHidden s.bullets pos := by
    simp [Spell.spawn, Timer.ready, hready]
  refine ⟨fun l₁ b l₂ hsplit h₁ hb => ?_, fun hall => ?_⟩
  · rw [hsp, hsplit, activateFirstHidden_split l₁ b l₂ pos h₁ hb]
  · rw [hsp, activateFirstHidden_all_visible s.bullets pos hall]

/-- C6 (witness): on the pool `[Hidden, Visible, Hidden]` with a ready
timer, spawn activates index 0, not index 2. -/
theorem spawn_first_hidden_slot_witness :
    mixedPool.shot_timer.delay < mixedPool.shot_timer.time + 1 ∧
    (mixedPool.spawn 1 ⟨350, 350⟩).bullets =
      [mixedActivatedSlot, mixedVisibleSlot, Bullet.new bulletSprite DIR_UP 3] := by
  have hr : mixedPool.shot_timer.delay < mixedPool.shot_timer.time + 1 := by
    norm_num [mixedPool]
  refine ⟨hr, ?_⟩
  have h := (spawn_first_hidden_slot mixedPool 1 ⟨350, 350⟩ hr).1
    [] (Bullet.new bulletSprite DIR_UP 3) [mixedVisibleSlot, Bullet.new bulletSprite DIR_UP 3]
    rfl (by simp) rfl
  simpa [Bullet.new, Body.new, DIR_UP, mixedActivatedSlot] using h

/-- C7 (confirmed): a pool holds exactly its construction-time number of
slots (`Spell::new` replicates the template `bullets_size` times), pool
sizes are preserved by every sequence of combat ticks, and hence the number
of Visible slots never exceeds the fixed capacity. -/
theorem pool_capacity_bound (bullet : Bullet) (n : ℕ) (delay : ℚ)
    (trace : List (Input × ℚ)) (s : State) (np ne : ℕ)
    (hp : ∀ p, s.player = some p → p.spell.bullets.length = np)
    (he : ∀ e, s.enemy = some e → e.spell.bullets.length = ne) :
    (Spell.new bullet n delay).bullets.length = n ∧
    ∀ s', runTrace trace s = some s' →
      (∀ p, s'.player = some p → p.spell.bullets.length = np ∧
        (p.spell.bullets.filter Bullet.is_visible).length ≤ np) ∧
      (∀ e, s'.enemy = some e → e.spell.bullets.length = ne ∧
        (e.spell.bullets.filter Bullet.is_visible).length ≤ ne) := by
  refine ⟨by simp [Spell.new], fun s' hrun => ?_⟩
  have h := runTrace_pools trace s s' np ne hrun hp he
  refine ⟨fun p hpp => ⟨h.1 p hpp, ?_⟩, fun e hee => ⟨h.2 e hee, ?_⟩⟩
  · rw [← h.1 p hpp]
    exact List.length_filter_le _ _
  · rw [← h.2 e hee]
    exact List.length_filter_le _ _

/-- C7 (witness): the capacity bound instantiated on the firing scenario
(one-slot player pool, no enemy) through one tick. -/
theorem pool_capacity_bound_witness :
    (∀ p, (scenarioState 10).player = some p → p.spell.bullets.length = 1) ∧
    (∀ e, (scenarioState 10).enemy = some e → e.spell.bullets.length = 0) ∧
    ((Spell.new (Bullet.new bulletSprite DIR_UP 10) 3 (1/10)).bullets.length = 3 ∧
     ∀ s', runTrace [(noInput, 1/10)] (scenarioState 10) = some s' →
       (∀ p, s'.player = some p → p.spell.bullets.length = 1 ∧
         (p.spell.bullets.filter Bullet.is_visible).length ≤ 1) ∧
       (∀ e, s'.enemy = some e → e.spell.bullets.length = 0 ∧
         (e.spell.bullets.filter Bullet.is_visible).length ≤ 0)) := by
  have hp : ∀ p, (scenarioState 10).player = some p → p.spell.bullets.length = 1 := by
    intro p hpp
    simp only [scenarioState] at hpp
    cases hpp
    simp [Player.new, Spell.new]
  have he : ∀ e, (scenarioState 10).enemy = some e → e.spell.bullets.length = 0 := by
    intro e hee
    simp only [scenarioState] at hee
    cases hee
  exact ⟨hp, he, pool_capacity_bound (Bullet.new bulletSprite DIR_UP 10) 3 (1/10)
    [(noInput, 1/10)] (scenarioState 10) 1 0 hp he⟩

/-- C8 (confirmed): `take_damage` saturates at zero (over `ℤ`, the new
health is `max (old − damage) 0`), any sequence of damage calls is
non-increasing on `health`, never touches `max_health`, and preserves
`health ≤ max_health`. -/
theorem damage_monotone_saturating (h : Health) (ds : List ℕ) (d : ℕ) :
    (applyDamages h ds).health ≤ h.health ∧
    ((h.take_damage d).health : ℤ) = max ((h.health : ℤ) - (d : ℤ)) 0 ∧
    (applyDamages h ds).max_health = h.max_health ∧
    (h.health ≤ h.max_health → (applyDamages h ds).health ≤ h.max_health) := by
  refine ⟨applyDamages_le ds h, ?_, applyDamages_max ds h,
    fun hm => le_trans (applyDamages_le ds h) hm⟩
  simp only [Health.take_damage]
  omega

/-- C8 (witness): the damage properties instantiated at health `5/10` with
damages `[2, 9]`. -/
theorem damage_monotone_saturating_witness :
    (5 : ℕ) ≤ 10 ∧ (applyDamages ⟨5, 10⟩ [2, 9]).health ≤ 10 :=
  ⟨by norm_num, (damage_monotone_saturating ⟨5, 10⟩ [2, 9] 7).2.2.2 (by norm_num)⟩

/-- C9 (confirmed): with an unmodified script file, the per-frame update in
Cinematic or Paused returns the state unchanged (the combat tick runs only
in Combat), and a pause (Escape) input received while already Paused is a
no-op: it neither re-enters Paused nor pushes a second menu. -/
theorem combat_gated_pause_noop (cfg : Globals) (input : Input) (delta : ℚ) (s : State)
    (h : s.gamestate = GameState.Cinematic ∨ s.gamestate = GameState.Paused) :
    State.update cfg false input delta s = some s ∧
    (s.gamestate = GameState.Paused →
      s.key_down_event cfg Key.Escape false = some s) := by
  constructor
  · unfold State.update
    rcases h with h | h <;> simp [h]
  · intro h2
    simp [State.key_down_event, h2]

/-- C9 (witness): the inertness and pause-reentry no-op on a concrete
paused state with the pause menu open. -/
theorem combat_gated_pause_noop_witness :
    (pausedProbeState.gamestate = GameState.Cinematic ∨
      pausedProbeState.gamestate = GameState.Paused) ∧
    (State.update defaultGlobals false noInput (1/10) pausedProbeState =
        some pausedProbeState ∧
      (pausedProbeState.gamestate = GameState.Paused →
        pausedProbeState.key_down_event defaultGlobals Key.Escape false =
          some pausedProbeState)) :=
  ⟨Or.inr rfl,
    combat_gated_pause_noop defaultGlobals noInput (1/10) pausedProbeState (Or.inr rfl)⟩

/-- C10 (confirmed): a pool built with zero slots is empty; if the player
is present and dead with an empty pool, the combat tick panics (the death
branch's `first().unwrap()`, embedded as `none`); and whenever every
present entity's pool is non-empty the tick is total. -/
theorem death_pass_unwrap (input : Input) (delta : ℚ) (s : State) (bullet : Bullet)
    (d : ℚ) :
    (Spell.new bullet 0 d).bullets = [] ∧
    (∀ p, s.player = some p → p.spell.bullets = [] → p.health.health = 0 →
      s.on_combat_update input delta = none) ∧
    ((∀ p, s.player = some p → p.spell.bullets ≠ []) →
     (∀ e, s.enemy = some e → e.spell.bullets ≠ []) →
     ∃ s', s.on_combat_update input delta = some s') := by
  refine ⟨by simp [Spell.new], ?_, fun hp he => tick_total s input delta hp he⟩
  intro p hsp hempty hdead
  rw [tick_eq_passes]
  have hin := inputPass_player_hs input s
  rw [hsp] at hin
  cases hq : (inputPass input s).player with
  | none => rw [hq] at hin; simp at hin
  | some p2 =>
    rw [hq] at hin
    simp at hin
    have hb0 : p2.spell.bullets = [] := by rw [hin.2, hempty]
    have hd0 : p2.health.health = 0 := by rw [hin.1, hdead]
    have hb1 : (playerBulletsPass (inputPass input s)).player =
        some { p2 with spell := { p2.spell with bullets := [] } } := by
      simp [playerBulletsPass, hq, hb0, playerBulletsFold]
    have hb2 : (playerSpawnPass delta (playerBulletsPass (inputPass input s))).player = some ({ p2 with spell := Spell.spawn ({ p2.spell with bullets := [] }) delta p2.body.position }) := by
      simp [playerSpawnPass, hb1]
    have hb3 : (Spell.spawn ({ p2.spell with bullets := [] }) delta p2.body.position).bullets
        = [] := spawn_nil p2.spell.shot_timer delta p2.body.position
    have hdp : playerDeathPass (playerSpawnPass delta (playerBulletsPass (inputPass input s)))
        = none := by
      simp [playerDeathPass, hb2, Health.is_alive, hd0, hb3]
    rw [hdp]
    rfl

/-- C10 (witness): the tick is total on a combat state whose two pools are
non-empty. -/
theorem death_pass_unwrap_witness :
    (∀ p, orderProbeState.player = some p → p.spell.bullets ≠ []) ∧
    (∀ e, orderProbeState.enemy = some e → e.spell.bullets ≠ []) ∧
    (∃ s', orderProbeState.on_combat_update noInput (1/10) = some s') := by
  have hp : ∀ p, orderProbeState.player = some p → p.spell.bullets ≠ [] := by
    intro p hpp
    simp only [orderProbeState] at hpp
    cases hpp
    simp
  have he : ∀ e, orderProbeState.enemy = some e → e.spell.bullets ≠ [] := by
    intro e hee
    simp only [orderProbeState] at hee
    cases hee
    simp
  exact ⟨hp, he,
    (death_pass_unwrap noInput (1/10) orderProbeState (Bullet.new bulletSprite DIR_UP 1) 1).2.2
      hp he⟩
